import Mathlib

/-!
Verification of the chord-voicing and symbol-normalization engine of the
chord-studio repository (`src/services/musicLogic.ts`).

Strings are embedded as `List Char` (`Str`).  The external music-theory
library collaborator (the `tonal` package: note parsing, MIDI numbers,
interval transposition and distance) is modelled concretely in the `Tonal`
namespace, following the library's fifths/octaves pitch-coordinate
arithmetic.  The dictionary-backed collaborator entry points
(`Chord.get`, `Chord.detect`, `Progression.fromRomanNumerals`) are taken
as function parameters of the embedded repository functions, matching the
spec's description of them as an abstract trusted collaborator.
-/

/-- Strings from the source are embedded as lists of characters. -/
abbrev Str := List Char

/-- Shorthand to turn a Lean string literal into the `Str` embedding. -/
def str (s : String) : Str := s.data

/-- JS `haystack.includes(needle)` for strings: substring test. -/
def containsSub : Str → Str → Bool
  | [], pat => pat.isEmpty
  | s@(_ :: t), pat => pat.isPrefixOf s || containsSub t pat

/-- Whitespace characters recognised by the `/\s+/` token splitter. -/
def isWs (c : Char) : Bool := c = ' ' || c = '\t' || c = '\n' || c = '\r'

/-- Accumulator for `splitOnWs` (current word is kept reversed). -/
def splitOnWsAux : Str → Str → List Str
  | [], cur => if cur.isEmpty then [] else [cur.reverse]
  | c :: t, cur =>
      if isWs c then
        if cur.isEmpty then splitOnWsAux t [] else cur.reverse :: splitOnWsAux t []
      else splitOnWsAux t (c :: cur)

/-- JS `s.split(/\s+/).filter(Boolean)`: whitespace-separated words. -/
def splitOnWs (s : Str) : List Str := splitOnWsAux s []

/-- Digit character for `natToStr`. -/
def digitChar (n : Nat) : Char := Char.ofNat (48 + n)

/-- Decimal digits of a natural number (with explicit fuel, msd first). -/
def natToCharsAux : Nat → Nat → Str
  | 0, _ => []
  | fuel + 1, n => if n < 10 then [digitChar n] else natToCharsAux fuel (n / 10) ++ [digitChar (n % 10)]

/-- Decimal rendering of a natural number. -/
def natToStr (n : Nat) : Str := natToCharsAux (n + 1) n

/-- Decimal rendering of an integer (JS template-string style). -/
def intToStr (i : Int) : Str := if i < 0 then '-' :: natToStr i.natAbs else natToStr i.toNat

/-- Numeric value of a list of decimal digit characters. -/
def natFromDigits (ds : Str) : Nat := ds.foldl (fun acc c => acc * 10 + (c.toNat - 48)) 0

namespace Tonal

/-- Parsed note: letter step (C=0 .. B=6), accidental alteration, optional octave. -/
structure PNote where
  step : Nat
  alt : Int
  oct : Option Int
  deriving DecidableEq, Repr

/-- Parsed interval: simple step (0..6), alteration, octave count, direction. -/
structure PIv where
  step : Nat
  alt : Int
  oct : Int
  dir : Int
  deriving DecidableEq, Repr

/-- Semitones of the unaltered step (the library's `SEMI` table). -/
def semiOf : Nat → Int
  | 0 => 0 | 1 => 2 | 2 => 4 | 3 => 5 | 4 => 7 | 5 => 9 | 6 => 11 | _ => 0

/-- Fifths coordinate of the unaltered step (the library's `FIFTHS` table). -/
def fifthsOf : Nat → Int
  | 0 => 0 | 1 => 2 | 2 => 4 | 3 => -1 | 4 => 1 | 5 => 3 | 6 => 5 | _ => 0

/-- The library's `STEPS_TO_OCTS` table: `floor(FIFTHS[step]*7/12)`. -/
def soOf : Nat → Int
  | 0 => 0 | 1 => 1 | 2 => 2 | 3 => -1 | 4 => 0 | 5 => 1 | 6 => 2 | _ => 0

/-- The library's `FIFTHS_TO_STEPS` table: step recovered from a fifths index. -/
def ftsOf : Nat → Nat
  | 0 => 3 | 1 => 0 | 2 => 4 | 3 => 1 | 4 => 5 | 5 => 2 | 6 => 6 | _ => 0

/-- Nonnegative residue of the fifths coordinate plus one (the library's `unaltered`). -/
def unaltered (f : Int) : Nat := ((f + 1) % 7).toNat

/-- Letter name of a step. -/
def letterOf : Nat → Char
  | 0 => 'C' | 1 => 'D' | 2 => 'E' | 3 => 'F' | 4 => 'G' | 5 => 'A' | 6 => 'B' | _ => 'C'

/-- Accidental string for an alteration (sharps when positive, flats when negative). -/
def accStr (alt : Int) : Str :=
  if alt < 0 then List.replicate (-alt).toNat 'b' else List.replicate alt.toNat '#'

/-- Is the character a note letter `[a-gA-G]`? -/
def isNoteLetter (c : Char) : Bool :=
  ('A' ≤ c && c ≤ 'G') || ('a' ≤ c && c ≤ 'g')

/-- Step of a note letter: `(charCode(upper) + 3) % 7`. -/
def stepOfLetter (c : Char) : Nat := (c.toUpper.toNat + 3) % 7

/-- Accidental run after the letter: a homogeneous run of `#` or of `b`. -/
def spanAcc : Str → (Int × Str)
  | s@('#' :: _) => (Int.ofNat (s.takeWhile (· = '#')).length, s.dropWhile (· = '#'))
  | s@('b' :: _) => (-Int.ofNat (s.takeWhile (· = 'b')).length, s.dropWhile (· = 'b'))
  | s => (0, s)

/-- Octave suffix: optional minus sign followed by digits, running to the end. -/
def parseOct : Str → Option Int
  | '-' :: ds => if ds ≠ [] && ds.all Char.isDigit then some (-(Int.ofNat (natFromDigits ds))) else none
  | ds => if ds ≠ [] && ds.all Char.isDigit then some (Int.ofNat (natFromDigits ds)) else none

/-- Note-name parser of the library collaborator (`Note.get`): letter,
homogeneous accidental run, optional octave; anything left over makes the
name invalid. -/
def parseNote : Str → Option PNote
  | [] => none
  | c :: rest =>
      if isNoteLetter c then
        let (alt, rest2) := spanAcc rest
        match rest2 with
        | [] => some ⟨stepOfLetter c, alt, none⟩
        | l => match parseOct l with
               | some o => some ⟨stepOfLetter c, alt, some o⟩
               | none => none
      else none

/-- Height of a parsed note (the library's `height`). -/
def heightOf (p : PNote) : Int :=
  match p.oct with
  | some o => semiOf p.step + p.alt + 12 * (o + 1)
  | none => (semiOf p.step + p.alt) % 12 - 12 * 99

/-- MIDI number of a parsed note: defined only with an octave and in 0..127. -/
def midiOfPN (p : PNote) : Option Int :=
  match p.oct with
  | some _ => let h := heightOf p; if 0 ≤ h ∧ h ≤ 127 then some h else none
  | none => none

/-- The collaborator's `Note.midi`. -/
def midiOpt (s : Str) : Option Int :=
  match parseNote s with
  | some p => midiOfPN p
  | none => none

/-- The collaborator's `Note.pitchClass`: letter plus accidentals, `""` when invalid. -/
def pitchClass (s : Str) : Str :=
  match parseNote s with
  | some p => letterOf p.step :: accStr p.alt
  | none => []

/-- Is the interval step majorable (steps 2,3,6,7) rather than perfectable? -/
def majorableB (step : Nat) : Bool := step = 1 || step = 2 || step = 5 || step = 6

/-- Quality token after the interval number: `d{1,4}|m|M|P|A{1,4}` (first
alternative that matches, trailing characters ignored as in the
collaborator's unanchored regular expression). -/
def qualityToken : Str → Option (Char × Nat)
  | 'd' :: t => some ('d', min ((('d' :: t).takeWhile (· = 'd')).length) 4)
  | 'm' :: _ => some ('m', 1)
  | 'M' :: _ => some ('M', 1)
  | 'P' :: _ => some ('P', 1)
  | 'A' :: t => some ('A', min ((('A' :: t).takeWhile (· = 'A')).length) 4)
  | _ => none

/-- Alteration of a quality for the given interval type (the library's `qToAlt`). -/
def qAltVal (majorable : Bool) (q : Char × Nat) : Int :=
  if q.1 = 'M' ∧ majorable then 0
  else if q.1 = 'P' ∧ ¬majorable then 0
  else if q.1 = 'm' ∧ majorable then -1
  else if q.1 = 'A' then Int.ofNat q.2
  else if q.1 = 'd' then (if majorable then -(Int.ofNat q.2 + 1) else -Int.ofNat q.2)
  else 0

/-- Interval parser of the library collaborator for the number-first format
used throughout the spec (for example `"3M"`, `"10M"`, `"-2m"`). -/
def parseInterval (s : Str) : Option PIv :=
  let (sign, rest) : Int × Str :=
    match s with
    | '-' :: t => (-1, t)
    | '+' :: t => (1, t)
    | t => (1, t)
  let ds := rest.takeWhile Char.isDigit
  let rest2 := rest.dropWhile Char.isDigit
  if ds.isEmpty then none
  else
    let n := natFromDigits ds
    if n = 0 then none
    else
      match qualityToken rest2 with
      | none => none
      | some q =>
          let step := (n - 1) % 7
          if majorableB step ∧ q.1 = 'P' then none
          else some ⟨step, qAltVal (majorableB step) q, Int.ofNat ((n - 1) / 7), sign⟩

/-- Fifths coordinate of a parsed note. -/
def noteFifths (p : PNote) : Int := fifthsOf p.step + 7 * p.alt

/-- Octaves coordinate of a parsed note with octave. -/
def noteOcts (p : PNote) (o : Int) : Int := o - soOf p.step - 4 * p.alt

/-- Note name from pitch coordinates (the library's `coordToNote(...).name`). -/
def decodeName (f : Int) (o : Option Int) : Str :=
  let step := ftsOf (unaltered f)
  let alt := (f + 1).fdiv 7
  match o with
  | none => letterOf step :: accStr alt
  | some oo => (letterOf step :: accStr alt) ++ intToStr (oo + 4 * alt + soOf step)

/-- The collaborator's `Note.transpose`: coordinate addition, `""` on a
parse failure of either argument. -/
def transpose (n iv : Str) : Str :=
  match parseNote n, parseInterval iv with
  | some pn, some pi =>
      let fi := pi.dir * (fifthsOf pi.step + 7 * pi.alt)
      let oi := pi.dir * (pi.oct - soOf pi.step - 4 * pi.alt)
      match pn.oct with
      | none => decodeName (noteFifths pn + fi) none
      | some oc => decodeName (noteFifths pn + fi) (some (noteOcts pn oc + oi))
  | _, _ => []

/-- Quality string of an interval alteration (the library's `altToQ`). -/
def qStrOf (majorable : Bool) (alt : Int) : Str :=
  if alt = 0 then (if majorable then str "M" else str "P")
  else if alt = -1 ∧ majorable then str "m"
  else if 0 < alt then List.replicate alt.toNat 'A'
  else List.replicate (if majorable then (-(alt + 1)).toNat else (-alt).toNat) 'd'

/-- Interval name from interval coordinates (the library's `coordToInterval`). -/
def coordToIntervalName (f o : Int) (forceDescending : Bool) : Str :=
  let desc := forceDescending || decide (f * 7 + o * 12 < 0)
  let f2 := if desc then -f else f
  let o2 := if desc then -o else o
  let step := ftsOf (unaltered f2)
  let alt := (f2 + 1).fdiv 7
  let oct := o2 + 4 * alt + soOf step
  let num := Int.ofNat (step + 1) + 7 * oct
  (if desc then ['-'] else []) ++ intToStr num ++ qStrOf (majorableB step) alt

/-- The collaborator's `Interval.distance` between two note names. -/
def distance (nFrom nTo : Str) : Str :=
  match parseNote nFrom, parseNote nTo with
  | some f, some t =>
      let fifths := noteFifths t - noteFifths f
      let octs : Int :=
        match f.oct, t.oct with
        | some fo, some to2 => noteOcts t to2 - noteOcts f fo
        | _, _ => -((fifths * 7).fdiv 12)
      let forceDescending :=
        decide (heightOf t = heightOf f) && (midiOfPN t).isSome &&
          decide (f.oct = t.oct) && decide (t.step < f.step)
      coordToIntervalName fifths octs forceDescending
  | _, _ => []

/-- The collaborator's `Note.fromMidi` (sharp spellings); negative MIDI
numbers, which the repository never produces, are clamped to zero. -/
def fromMidi (m : Int) : Str :=
  let n := m.toNat
  let names := [str "C", str "C#", str "D", str "D#", str "E", str "F",
                str "F#", str "G", str "G#", str "A", str "A#", str "B"]
  names.getD (n % 12) [] ++ intToStr (Int.ofNat (n / 12) - 1)

end Tonal

/-! ## Data model (src/types.ts) -/

/-- The central output record (`ChordData` in src/types.ts). -/
structure ChordData where
  root : Str
  symbol : Str
  notes : List Str
  intervals : List Str
  name : Str
  deriving DecidableEq, Repr

/-- Curated chord entry (`FeaturedChord` in src/types.ts); an absent
`customNotes` field is embedded as the empty list, which the code treats
the same way. -/
structure FeaturedChord where
  id : Str
  displayName : Str
  root : Str
  symbol : Str
  description : Str
  tags : List Str
  customNotes : List Str
  deriving DecidableEq, Repr

/-- Record returned by the library collaborator's `Chord.get`. -/
structure ChordInfo where
  empty : Bool
  name : Str
  symbol : Str
  tonic : Option Str
  intervals : List Str
  deriving DecidableEq, Repr

/-! ## Symbol Sanitizer (src/services/musicLogic.ts, `sanitizeSymbol`) -/

/-- The major aliases blanked by the sanitizer. -/
def majorAliases : List Str := [str "M", str "major", str "Major", str "Maj", str "maj"]

/-- Does the root name carry an accidental? -/
def hasAccidental (r : Str) : Bool := r.contains '#' || r.contains 'b'

/-- Is the optional character a `#` or `b` accidental? -/
def isAccOptB : Option Char → Bool
  | some c => c = '#' || c = 'b'
  | none => false

/-- Segment of `s` before its first `/` (JS `s.split('/')[0]`). -/
def splitQuality (s : Str) : Str := s.takeWhile (· ≠ '/')

/-- Segment of `s` between its first and second `/` (JS `s.split('/')[1]`). -/
def splitBass (s : Str) : Str := ((s.dropWhile (· ≠ '/')).drop 1).takeWhile (· ≠ '/')

/-- Step 1 of `sanitizeSymbol`: strip a leading root name, guarded against
consuming an accidental the root does not own. -/
def sanitizeStrip (symbol root : Str) : Str :=
  if !root.isEmpty && root.isPrefixOf symbol then
    let rest := symbol.drop root.length
    let nextChar := rest.head?
    let rootHasAccidental := hasAccidental root
    if rootHasAccidental || !isAccOptB nextChar then rest else symbol
  else symbol

/-- Steps 2 and 3 of `sanitizeSymbol`: blank exact major aliases, and blank
a major quality in front of a slash bass. -/
def sanitizeTail (s : Str) : Str :=
  if s ∈ majorAliases then []
  else if s.contains '/' then
    let quality := splitQuality s
    let bass := splitBass s
    if quality ∈ majorAliases then '/' :: bass else s
  else s

/-- `sanitizeSymbol` from src/services/musicLogic.ts: the two stages run in
the order of the source. -/
def sanitizeSymbol (symbol root : Str) : Str :=
  sanitizeTail (sanitizeStrip symbol root)

/-! ## Voicing strategies -/

/-- JS `Note.midi(x) || 0`: the sort key of the Standard-voicing comparator. -/
def jsMidiOr0 (n : Str) : Int := (Tonal.midiOpt n).getD 0

/-- Ordering used to model the JS stable `Array.sort` with comparator
`(midi(a)||0) - (midi(b)||0)`. -/
def stdLe (a b : Str) : Prop := jsMidiOr0 a ≤ jsMidiOr0 b

instance : DecidableRel stdLe := fun a b => inferInstanceAs (Decidable (jsMidiOr0 a ≤ jsMidiOr0 b))

instance : IsTotal Str stdLe := ⟨fun a b => le_total (jsMidiOr0 a) (jsMidiOr0 b)⟩

instance : IsTrans Str stdLe := ⟨fun _ _ _ hab hbc => le_trans hab hbc⟩

/-- `getStandardVoicing` of the first musicLogic variant (lines 48-64):
anchor the root at octave 4, transpose every interval, sort by MIDI. -/
def getStandardVoicing (root : Str) (intervals : List Str) : List Str :=
  if root.isEmpty then []
  else
    let rootNote := root ++ str "4"
    let notes := intervals.map (fun iv => Tonal.transpose rootNote iv)
    List.insertionSort stdLe notes

/-- `getStandardVoicing` of the second musicLogic variant (lines 419-429):
anchor the root at octave 4 and transpose every interval, without sorting. -/
def getStandardVoicingV2 (root : Str) (intervals : List Str) : List Str :=
  if root.isEmpty then []
  else
    let rootNote := root ++ str "4"
    intervals.map (fun iv => Tonal.transpose rootNote iv)

/-- Numeric degree of an interval token: JS `parseInt(i.replace(/\D/g, ''))`,
`none` on NaN (no digit present). -/
def intervalDegree (iv : Str) : Option Nat :=
  let ds := iv.filter Char.isDigit
  if ds.isEmpty then none else some (natFromDigits ds)

/-- `getSpreadVoicing` (first variant): root at octave 3, then fifth,
seventh-or-sixth, third (pushed up an octave), first extension above the
seventh (pushed up an octave), finally sorted by MIDI. -/
def getSpreadVoicing (root : Str) (intervals : List Str) : List Str :=
  if root.isEmpty then []
  else
    let rootNote := root ++ str "3"
    let voicing := [rootNote]
    let voicing :=
      match intervals.find? (fun i => (str "5").isPrefixOf i) with
      | some iv => voicing ++ [Tonal.transpose rootNote iv]
      | none => voicing
    let voicing :=
      match intervals.find? (fun i => (str "7").isPrefixOf i || (str "6").isPrefixOf i) with
      | some iv => voicing ++ [Tonal.transpose rootNote iv]
      | none => voicing
    let voicing :=
      match intervals.find? (fun i => (str "3").isPrefixOf i || (str "2").isPrefixOf i || (str "4").isPrefixOf i) with
      | some iv =>
          let lowThird := Tonal.transpose rootNote iv
          match Tonal.midiOpt lowThird with
          | some m => voicing ++ [Tonal.fromMidi (m + 12)]
          | none => voicing
      | none => voicing
    let voicing :=
      match intervals.find? (fun i => match intervalDegree i with | some n => decide (7 < n) | none => false) with
      | some iv =>
          let lowExt := Tonal.transpose rootNote iv
          match Tonal.midiOpt lowExt with
          | some m => voicing ++ [Tonal.fromMidi (m + 12)]
          | none => voicing
      | none => voicing
    List.insertionSort stdLe voicing

/-- Pitch classes the second variant's `getNaturalVoicing` sends to the low
register (bass octave 2, chord octave 3). -/
def lowRoots : List Str :=
  [str "E", str "F", str "F#", str "Gb", str "G", str "G#", str "Ab",
   str "A", str "A#", str "Bb", str "B"]

/-- `getNaturalVoicing` of the second musicLogic variant (lines 438-483):
register-selected bass plus block chord, with a fixed 5-note stack for
major-seventh chords (root, fifth, seventh, compound major third). -/
def getNaturalVoicing (root : Str) (intervals : List Str) : List Str :=
  if root.isEmpty then []
  else
    let pc := Tonal.pitchClass root
    let isLowRoot := lowRoots.contains pc
    let bassOctave := if isLowRoot then str "2" else str "3"
    let chordOctave := if isLowRoot then str "3" else str "4"
    let bassNote := pc ++ bassOctave
    let chordRoot := pc ++ chordOctave
    let isMaj7 := intervals.contains (str "7M") && intervals.contains (str "3M")
    if isMaj7 then
      [bassNote,
       Tonal.transpose chordRoot (str "1P"),
       Tonal.transpose chordRoot (str "5P"),
       Tonal.transpose chordRoot (str "7M"),
       Tonal.transpose chordRoot (str "10M")]
    else
      bassNote :: intervals.map (fun iv => Tonal.transpose chordRoot iv)

/-! ## Featured chords (`getFeaturedChordData`, first variant, lines 170-199) -/

/-- JS `note.replace(/\d/, '')`: remove only the first digit character. -/
def removeFirstDigit : Str → Str
  | [] => []
  | c :: t => if c.isDigit then t else c :: removeFirstDigit t

/-- `getFeaturedChordData`: a non-empty `customNotes` list is authoritative
(notes verbatim, intervals recomputed by distance from the root); otherwise
the chord is resolved through the collaborator and spread-voiced. -/
def getFeaturedChordData (chordGet : Str → ChordInfo) (featured : FeaturedChord) : ChordData :=
  if !featured.customNotes.isEmpty then
    { root := featured.root
      symbol := featured.symbol
      notes := featured.customNotes
      intervals := featured.customNotes.map (fun n => Tonal.distance featured.root (removeFirstDigit n))
      name := featured.displayName }
  else
    let chord := chordGet (featured.root ++ featured.symbol)
    { root := featured.root
      symbol := featured.symbol
      notes := getSpreadVoicing featured.root chord.intervals
      intervals := chord.intervals
      name := featured.displayName }

/-! ## Resolution Advisor (`getChordResolutions`) -/

/-- The dominant-family test: `/^(7|9|11|13)/` and no `maj`, `min` or `m`
anywhere in the symbol. -/
def isDomB (s : Str) : Bool :=
  ((str "7").isPrefixOf s || (str "9").isPrefixOf s ||
   (str "11").isPrefixOf s || (str "13").isPrefixOf s) &&
  !containsSub s (str "maj") && !containsSub s (str "min") && !containsSub s (str "m")

/-- `getChordResolutions`: fixed heuristic rule table, evaluated
top-to-bottom, first match wins; empty root and failed transpositions
yield the empty list. -/
def getChordResolutions (root symbol : Str) : List Str :=
  if root.isEmpty then []
  else
    let r := root.filter (fun c => !c.isDigit)
    let s := splitQuality symbol
    if containsSub s (str "sus") then [r, r ++ str "m"]
    else if isDomB s then
      let target := Tonal.transpose r (str "4P")
      if target.isEmpty then [] else [target, target ++ str "m"]
    else if s = str "m7b5" then
      let target := Tonal.transpose r (str "4P")
      if target.isEmpty then [] else [target ++ str "7"]
    else if (str "m").isPrefixOf s && !containsSub s (str "maj") then
      let relMaj := Tonal.transpose r (str "3m")
      let iv := Tonal.transpose r (str "4P")
      let v := Tonal.transpose r (str "5P")
      (if relMaj.isEmpty then [] else [relMaj]) ++
      (if iv.isEmpty then [] else [iv ++ str "m"]) ++
      (if v.isEmpty then [] else [v])
    else if containsSub s (str "dim") then
      let target := Tonal.transpose r (str "2m")
      if target.isEmpty then [] else [target, target ++ str "m"]
    else if containsSub s (str "aug") then
      let target := Tonal.transpose r (str "4P")
      if target.isEmpty then [] else [target]
    else
      let iv := Tonal.transpose r (str "4P")
      let v := Tonal.transpose r (str "5P")
      let vi := Tonal.transpose r (str "6M")
      (if iv.isEmpty then [] else [iv]) ++
      (if v.isEmpty then [] else [v]) ++
      (if vi.isEmpty then [] else [vi ++ str "m"])

/-! ## Chord Detector (`detectChordsFromNotes`, first variant, lines 205-268) -/

/-- Ordering modelling the detector's JS stable sort with comparator
`(a, b) => mA !== null && mB !== null ? mA - mB : 0`. -/
def detLeB (a b : Str) : Bool :=
  match Tonal.midiOpt a, Tonal.midiOpt b with
  | some x, some y => decide (x ≤ y)
  | _, _ => true

/-- Propositional form of `detLeB` for `List.insertionSort`. -/
def detLe (a b : Str) : Prop := detLeB a b = true

instance : DecidableRel detLe := fun a b => inferInstanceAs (Decidable (detLeB a b = true))

/-- Tokenizer of the detector: commas become spaces, split on whitespace,
drop empty tokens. -/
def tokenizeInput (input : Str) : List Str :=
  splitOnWs (input.map (fun c => if c = ',' then ' ' else c))

/-- Validated and MIDI-sorted note tokens of the detector input. -/
def detectorValidNotes (input : Str) : List Str :=
  List.insertionSort detLe ((tokenizeInput input).filter (fun n => (Tonal.parseNote n).isSome))

/-- Does any validated token carry a digit (an explicit octave)? -/
def detectorHasOctaves (validNotes : List Str) : Bool :=
  validNotes.any (fun n => n.any Char.isDigit)

/-- Leading `[A-G][#b]?` of a candidate chord name (JS regex fallback for a
missing tonic), `""` when there is no match. -/
def regexRoot : Str → Str
  | [] => []
  | c :: rest =>
      if 'A' ≤ c && c ≤ 'G' then
        c :: (match rest with
              | d :: _ => if d = '#' || d = 'b' then [d] else []
              | [] => [])
      else []

/-- Per-candidate record builder: the body of the `detected.map` call in
`detectChordsFromNotes`. -/
def buildCandidate (chordGet : Str → ChordInfo) (hasOctaves : Bool)
    (validNotes : List Str) (mtch : Str) : ChordData :=
  let chordInfo := chordGet mtch
  let displayNotes :=
    if hasOctaves then validNotes
    else getStandardVoicing (chordInfo.tonic.getD []) chordInfo.intervals
  let root :=
    let t := chordInfo.tonic.getD []
    if t.isEmpty then regexRoot mtch else t
  let cleanSymbol :=
    if !root.isEmpty && root.isPrefixOf mtch then
      let rootHasAccidental := decide (1 < root.length)
      let matchNextChar := (mtch.drop root.length).head?
      if rootHasAccidental || !isAccOptB matchNextChar then mtch.drop root.length else mtch
    else chordInfo.symbol
  let cleanSymbol := if cleanSymbol ∈ [str "M", str "Major", str "major"] then [] else cleanSymbol
  let cleanSymbol :=
    if (str "M/").isPrefixOf cleanSymbol || (str "Major/").isPrefixOf cleanSymbol then
      cleanSymbol.drop 1
    else cleanSymbol
  { root := root
    symbol := cleanSymbol
    notes := displayNotes
    intervals := if 0 < chordInfo.intervals.length then chordInfo.intervals else []
    name := if chordInfo.name.isEmpty then mtch else chordInfo.name }

/-- `detectChordsFromNotes`: tokenize, validate, sort, ask the collaborator
for candidates, and build one `ChordData` per candidate. -/
def detectChordsFromNotes (chordDetect : List Str → List Str)
    (chordGet : Str → ChordInfo) (input : Str) : List ChordData :=
  let rawNotes := tokenizeInput input
  if rawNotes.isEmpty then []
  else
    let validNotes := detectorValidNotes input
    if validNotes.isEmpty then []
    else
      let detected := chordDetect validNotes
      if detected.isEmpty then []
      else
        let hasOctaves := detectorHasOctaves validNotes
        detected.map (buildCandidate chordGet hasOctaves validNotes)

/-! ## Progression Realizer (`getProgressionChords`) -/

/-- JS lower-case test used on the numeral's first letter:
`c === c.toLowerCase() && c !== c.toUpperCase()` (ASCII case mapping). -/
def jsIsLower (c : Char) : Bool := c.toLower = c && c.toUpper ≠ c

/-- Is the numeral's first letter, after stripping leading `b`/`#` markers,
lower case?  An empty remainder counts as not lower case. -/
def isLowerRoman (roman : Str) : Bool :=
  match (roman.dropWhile (fun c => c = 'b' || c = '#')).head? with
  | some c => jsIsLower c
  | none => false

/-- JS string coercion of a possibly-null tonic (`c.tonic + suffix`). -/
def jsTonic : Option Str → Str
  | some t => t
  | none => str "null"

/-- Per-numeral minor-correction: the body of the map in
`getProgressionChords`. -/
def progressionFix (chordGet : Str → ChordInfo) (roman chordName : Str) : Str :=
  if isLowerRoman roman then
    let c := chordGet chordName
    if !c.empty && c.intervals.contains (str "3M") then
      let newSymbol :=
        if c.symbol = str "7" then str "m7"
        else if c.symbol = str "maj7" then str "m7"
        else str "m"
      jsTonic c.tonic ++ newSymbol
    else chordName
  else chordName

/-- Indexed map of `progressionFix` over the expanded chord names, pairing
each with its numeral (`numerals[i]`). -/
def progressionMapAux (chordGet : Str → ChordInfo) (numerals : List Str) :
    Nat → List Str → List Str
  | _, [] => []
  | i, c :: rest =>
      progressionFix chordGet (numerals.getD i []) c ::
        progressionMapAux chordGet numerals (i + 1) rest

/-- `getProgressionChords`: expand the numerals through the collaborator,
then apply the lowercase-numeral minor-correction per position. -/
def getProgressionChords (fromRoman : Str → List Str → List Str)
    (chordGet : Str → ChordInfo) (key : Str) (numerals : List Str) : List Str :=
  progressionMapAux chordGet numerals 0 (fromRoman key numerals)

/-! ## Concrete collaborator instances used by the witnesses -/

/-- Collaborator stub for `Chord.detect`: one candidate, `"CM"`. -/
def detStub : List Str → List Str := fun _ => [str "CM"]

/-- Collaborator stub for `Chord.get`: a C major triad record. -/
def chordGetStub : Str → ChordInfo := fun _ =>
  { empty := false, name := str "C major", symbol := str "CM",
    tonic := some (str "C"), intervals := [str "1P", str "3M", str "5P"] }

/-- Collaborator stub for `Chord.get` resolving to a G dominant seventh
with quality-only symbol `"7"`. -/
def chordGetStub7 : Str → ChordInfo := fun _ =>
  { empty := false, name := str "G dominant seventh", symbol := str "7",
    tonic := some (str "G"), intervals := [str "1P", str "3M", str "5P", str "7m"] }

/-- Collaborator stub for `Progression.fromRomanNumerals`. -/
def fromRomanStub : Str → List Str → List Str := fun _ _ => [str "G7"]

/-- The curated Spy Chord entry (`FEATURED_CHORDS`, src/constants.ts). -/
def featuredSpyChord : FeaturedChord :=
  { id := str "james-bond", displayName := str "The Spy Chord",
    root := str "E", symbol := str "mM9",
    description := str "The Minor Major 9th",
    tags := [str "Cinematic", str "Jazz", str "Suspense"],
    customNotes := [str "E3", str "G3", str "B3", str "D#4", str "F#4"] }

/-! ## Helper lemmas -/

/-- The sanitizer never outputs a bare major alias. -/
theorem sanitizeTail_not_major (s : Str) : sanitizeTail s ∉ majorAliases := by
  simp only [sanitizeTail]
  split_ifs with h1 h2 h3
  · decide
  · intro hmem
    simp only [majorAliases, str, List.mem_cons, List.mem_singleton] at hmem
    rcases hmem with h | h | h | h | h | h <;> first
      | (injection h with hc _; exact absurd hc (by decide))
      | simp at h
  · exact h1
  · exact h1

/-- When the sanitizer's output contains a slash, the quality in front of
the slash is not a major alias. -/
theorem sanitizeTail_slash (s : Str) :
    (sanitizeTail s).contains '/' = true → splitQuality (sanitizeTail s) ∉ majorAliases := by
  simp only [sanitizeTail]
  split_ifs with h1 h2 h3
  · intro h; simp at h
  · intro _
    simp only [splitQuality, List.takeWhile_cons]
    norm_num
    decide
  · intro _; exact h3
  · intro h; exact absurd h h2

/-- The tail stage fixes any string that is neither a major alias nor a
slash chord with a major quality. -/
theorem sanitizeTail_fixed (t : Str) (h1 : t ∉ majorAliases)
    (h2 : t.contains '/' = true → splitQuality t ∉ majorAliases) : sanitizeTail t = t := by
  simp only [sanitizeTail]
  rw [if_neg h1]
  by_cases hc : t.contains '/' = true
  · rw [if_pos hc, if_neg (h2 hc)]
  · rw [if_neg hc]

/-- A transposition from an unparseable note name yields the empty string. -/
theorem transpose_of_parseNote_none {n : Str} (h : Tonal.parseNote n = none) (iv : Str) :
    Tonal.transpose n iv = [] := by
  unfold Tonal.transpose
  rw [h]

/-- The notes field the per-candidate builder produces. -/
theorem buildCandidate_notes (get : Str → ChordInfo) (h : Bool) (vn : List Str) (m : Str) :
    (buildCandidate get h vn m).notes =
      if h then vn else getStandardVoicing ((get m).tonic.getD []) (get m).intervals := rfl

/-- Every record the detector returns is built by `buildCandidate` from one
of the collaborator's candidates. -/
theorem detect_mem_structure (det : List Str → List Str) (get : Str → ChordInfo)
    (input : Str) (cd : ChordData) (h : cd ∈ detectChordsFromNotes det get input) :
    ∃ m, m ∈ det (detectorValidNotes input) ∧
      cd = buildCandidate get (detectorHasOctaves (detectorValidNotes input))
             (detectorValidNotes input) m := by
  simp only [detectChordsFromNotes] at h
  split_ifs at h with h1 h2 h3
  · simp at h
  · simp at h
  · simp at h
  · obtain ⟨m, hm, heq⟩ := List.mem_map.mp h
    exact ⟨m, hm, heq.symm⟩

/-- Element access through the indexed progression map. -/
theorem progressionMapAux_getD (get : Str → ChordInfo) (numerals : List Str) :
    ∀ (chords : List Str) (i j : Nat), j < chords.length →
      (progressionMapAux get numerals i chords).getD j [] =
        progressionFix get (numerals.getD (i + j) []) (chords.getD j []) := by
  intro chords
  induction chords with
  | nil => intro i j hj; simp at hj
  | cons c rest ih =>
      intro i j hj
      cases j with
      | zero => simp [progressionMapAux]
      | succ k =>
          simp only [progressionMapAux, List.getD_cons_succ]
          rw [ih (i + 1) k (by simpa using hj)]
          congr 2
          omega

/-! ## Claim theorems -/

/-- C1 (counterexample): the sanitizer is not idempotent as universally
stated: for symbol `"CC7"` and root `"C"` the first pass yields `"C7"`,
which a second pass strips again to `"7"`. -/
theorem sanitize_idempotent_cex :
    sanitizeSymbol (sanitizeSymbol (str "CC7") (str "C")) (str "C") ≠
      sanitizeSymbol (str "CC7") (str "C") := by decide

/-- C1 (amended): the sanitizer is idempotent whenever the root is not
again a prefix of the sanitized output (the counterexample `"CC7"`/`"C"`
is exactly the case where it is). -/
theorem sanitize_idempotent_amended (s r : Str)
    (h : r.isPrefixOf (sanitizeSymbol s r) = false) :
    sanitizeSymbol (sanitizeSymbol s r) r = sanitizeSymbol s r := by
  have hstrip : sanitizeStrip (sanitizeSymbol s r) r = sanitizeSymbol s r := by
    unfold sanitizeStrip
    rw [h]
    simp
  show sanitizeTail (sanitizeStrip (sanitizeSymbol s r) r) = sanitizeSymbol s r
  rw [hstrip]
  exact sanitizeTail_fixed (sanitizeSymbol s r)
    (sanitizeTail_not_major (sanitizeStrip s r))
    (sanitizeTail_slash (sanitizeStrip s r))

/-- C1 (witness): idempotence at the concrete pair `("Gsus4", "G")`. -/
theorem sanitize_idempotent_amended_witness :
    sanitizeSymbol (sanitizeSymbol (str "Gsus4") (str "G")) (str "G") =
      sanitizeSymbol (str "Gsus4") (str "G") :=
  sanitize_idempotent_amended (str "Gsus4") (str "G") (by decide)

/-- C2: the accidental-boundary guard: when the root carries no accidental
and the character right after the root prefix is `#` or `b`, the prefix is
not stripped (sanitizing behaves as with an empty root); in particular
`sanitize("Abmaj7", "A") = "Abmaj7"`. -/
theorem sanitize_accidental_guard :
    sanitizeSymbol (str "Abmaj7") (str "A") = str "Abmaj7" ∧
    ∀ s r : Str, r.isPrefixOf s = true → hasAccidental r = false →
      isAccOptB ((s.drop r.length).head?) = true →
      sanitizeSymbol s r = sanitizeSymbol s [] := by
  refine ⟨by decide, fun s r hpre hacc hnext => ?_⟩
  show sanitizeTail (sanitizeStrip s r) = sanitizeTail (sanitizeStrip s [])
  congr 1
  have hnil : sanitizeStrip s [] = s := by simp [sanitizeStrip]
  rw [hnil]
  simp only [sanitizeStrip, hpre, hacc, hnext]
  simp

/-- C2 (witness): the guard at the concrete pair `("Abmaj7", "A")`. -/
theorem sanitize_accidental_guard_witness :
    sanitizeSymbol (str "Abmaj7") (str "A") = sanitizeSymbol (str "Abmaj7") [] :=
  sanitize_accidental_guard.2 (str "Abmaj7") (str "A") (by decide) (by decide) (by decide)

/-- C3 (counterexample): the second `getStandardVoicing` implementation
(lines 419-429) does not sort: with root `"C"` and intervals
`["5P", "1P"]` it returns `["G4", "C4"]`, which decreases in MIDI pitch. -/
theorem standard_voicing_sorted_cex :
    getStandardVoicingV2 (str "C") [str "5P", str "1P"] = [str "G4", str "C4"] ∧
    ¬ List.Sorted stdLe (getStandardVoicingV2 (str "C") [str "5P", str "1P"]) := by
  refine ⟨by decide, fun hs => ?_⟩
  rw [(by decide : getStandardVoicingV2 (str "C") [str "5P", str "1P"] = [str "G4", str "C4"])] at hs
  have h1 := List.rel_of_sorted_cons hs (str "C4") (by simp)
  exact absurd h1 (by decide)

/-- C3 (amended): the first `getStandardVoicing` implementation
(lines 48-64), which sorts by the comparator key `midi(x) || 0`, returns a
sequence that is non-decreasing in that MIDI key for every non-empty root
and every interval list; the second implementation returns notes in
interval-list order and can decrease. -/
theorem standard_voicing_sorted_amended (root : Str) (intervals : List Str)
    (h : root ≠ []) : List.Sorted stdLe (getStandardVoicing root intervals) := by
  unfold getStandardVoicing
  have hre : root.isEmpty = false := by
    cases root with
    | nil => exact absurd rfl h
    | cons c t => rfl
  rw [hre]
  simpa using List.sorted_insertionSort stdLe
    (intervals.map (fun iv => Tonal.transpose (root ++ str "4") iv))

/-- C3 (witness): the sorting implementation at the counterexample's own
input returns the ascending order. -/
theorem standard_voicing_sorted_amended_witness :
    List.Sorted stdLe (getStandardVoicing (str "C") [str "5P", str "1P"]) :=
  standard_voicing_sorted_amended (str "C") [str "5P", str "1P"] (by decide)

/-- C4: `resolve("G", "m7b5")` hits the half-diminished rule before the
generic minor-family rule and returns exactly `["C7"]`. -/
theorem resolutions_m7b5_precedence :
    getChordResolutions (str "G") (str "m7b5") = [str "C7"] := by decide

/-- C5: the Resolution Advisor is total with an empty-list failure mode:
an empty root returns `[]`, and for a non-empty root whose digit-stripped
form fails note parsing (so that every transposition fails) any symbol not
containing `"sus"` also returns `[]`. -/
theorem resolutions_total_empty_on_failure :
    (∀ s : Str, getChordResolutions [] s = []) ∧
    (∀ root symbol : Str, root ≠ [] →
      containsSub (splitQuality symbol) (str "sus") = false →
      Tonal.parseNote (root.filter (fun c => !c.isDigit)) = none →
      getChordResolutions root symbol = []) := by
  constructor
  · intro s; rfl
  · intro root symbol hr hsus hparse
    have hre : root.isEmpty = false := by
      cases root with
      | nil => exact absurd rfl hr
      | cons c t => rfl
    have htr : ∀ iv, Tonal.transpose (root.filter (fun c => !c.isDigit)) iv = [] :=
      fun iv => transpose_of_parseNote_none hparse iv
    simp only [getChordResolutions, hre, hsus, htr]
    simp

/-- C5 (witness): empty root, and an unparseable root with a non-sus
symbol, both at concrete inputs. -/
theorem resolutions_total_empty_on_failure_witness :
    getChordResolutions [] (str "7") = [] ∧ getChordResolutions (str "x") (str "q") = [] :=
  ⟨resolutions_total_empty_on_failure.1 (str "7"),
   resolutions_total_empty_on_failure.2 (str "x") (str "q") (by decide) (by decide) (by decide)⟩

/-- C6: for every input, a candidate's displayed notes are the validated
MIDI-sorted tokens when any validated token carries an octave digit, and
the Standard voicing of that candidate's intervals otherwise; in
particular every candidate for `"C4 E4 G4"` displays exactly
`["C4", "E4", "G4"]`. -/
theorem detector_display_notes :
    (∀ (det : List Str → List Str) (get : Str → ChordInfo) (input : Str) (cd : ChordData),
      cd ∈ detectChordsFromNotes det get input →
      ∃ m, m ∈ det (detectorValidNotes input) ∧
        cd.notes = (if detectorHasOctaves (detectorValidNotes input)
                    then detectorValidNotes input
                    else getStandardVoicing ((get m).tonic.getD []) (get m).intervals)) ∧
    (∀ (det : List Str → List Str) (get : Str → ChordInfo) (cd : ChordData),
      cd ∈ detectChordsFromNotes det get (str "C4 E4 G4") →
      cd.notes = [str "C4", str "E4", str "G4"]) := by
  constructor
  · intro det get input cd h
    obtain ⟨m, hm, heq⟩ := detect_mem_structure det get input cd h
    exact ⟨m, hm, by rw [heq, buildCandidate_notes]⟩
  · intro det get cd h
    obtain ⟨m, _, heq⟩ := detect_mem_structure det get (str "C4 E4 G4") cd h
    rw [heq, buildCandidate_notes,
        (by decide : detectorHasOctaves (detectorValidNotes (str "C4 E4 G4")) = true),
        if_pos rfl]
    decide

/-- C6 (witness): the candidate built for `"C4 E4 G4"` with the stub
collaborator displays the literal input. -/
theorem detector_display_notes_witness :
    (buildCandidate chordGetStub true (detectorValidNotes (str "C4 E4 G4")) (str "CM")).notes =
      [str "C4", str "E4", str "G4"] :=
  detector_display_notes.2 detStub chordGetStub _ (by decide)

/-- C10: when any validated token carries an octave digit, every candidate
the detector returns carries the identical notes list, namely the
validated sorted tokens, regardless of the candidate's own intervals. -/
theorem detector_uniform_display_notes :
    ∀ (det : List Str → List Str) (get : Str → ChordInfo) (input : Str),
      detectorHasOctaves (detectorValidNotes input) = true →
      ∀ cd : ChordData, cd ∈ detectChordsFromNotes det get input →
        cd.notes = detectorValidNotes input := by
  intro det get input hoct cd h
  obtain ⟨m, _, heq⟩ := detect_mem_structure det get input cd h
  rw [heq, buildCandidate_notes, hoct, if_pos rfl]

/-- C10 (witness): the uniform display notes at the concrete input
`"C4 E4 G4"` with the stub collaborator. -/
theorem detector_uniform_display_notes_witness :
    (buildCandidate chordGetStub true (detectorValidNotes (str "C4 E4 G4")) (str "CM")).notes =
      detectorValidNotes (str "C4 E4 G4") :=
  detector_uniform_display_notes detStub chordGetStub (str "C4 E4 G4") (by decide) _ (by decide)

/-- C7: the Progression Realizer's minor-correction: at every position
whose numeral is lowercase (after stripping leading accidentals) and whose
expanded chord is non-empty with a major third, a symbol other than `"7"`
and `"maj7"` is rewritten to tonic+`"m"`, a `"7"` or `"maj7"` symbol to
tonic+`"m7"`; positions with non-lowercase numerals are returned
unchanged. -/
theorem progression_minor_correction :
    ∀ (fromRoman : Str → List Str → List Str) (chordGet : Str → ChordInfo)
      (key : Str) (numerals : List Str) (i : Nat),
      i < (fromRoman key numerals).length →
      ((isLowerRoman (numerals.getD i []) = true →
        (chordGet ((fromRoman key numerals).getD i [])).empty = false →
        (chordGet ((fromRoman key numerals).getD i [])).intervals.contains (str "3M") = true →
        (chordGet ((fromRoman key numerals).getD i [])).symbol ≠ str "7" →
        (chordGet ((fromRoman key numerals).getD i [])).symbol ≠ str "maj7" →
        (getProgressionChords fromRoman chordGet key numerals).getD i [] =
          jsTonic (chordGet ((fromRoman key numerals).getD i [])).tonic ++ str "m") ∧
       (isLowerRoman (numerals.getD i []) = true →
        (chordGet ((fromRoman key numerals).getD i [])).empty = false →
        (chordGet ((fromRoman key numerals).getD i [])).intervals.contains (str "3M") = true →
        ((chordGet ((fromRoman key numerals).getD i [])).symbol = str "7" ∨
         (chordGet ((fromRoman key numerals).getD i [])).symbol = str "maj7") →
        (getProgressionChords fromRoman chordGet key numerals).getD i [] =
          jsTonic (chordGet ((fromRoman key numerals).getD i [])).tonic ++ str "m7") ∧
       (isLowerRoman (numerals.getD i []) = false →
        (getProgressionChords fromRoman chordGet key numerals).getD i [] =
          (fromRoman key numerals).getD i [])) := by
  intro fromRoman chordGet key numerals i hi
  have hout : (getProgressionChords fromRoman chordGet key numerals).getD i [] =
      progressionFix chordGet (numerals.getD i []) ((fromRoman key numerals).getD i []) := by
    show (progressionMapAux chordGet numerals 0 (fromRoman key numerals)).getD i [] = _
    rw [progressionMapAux_getD chordGet numerals (fromRoman key numerals) 0 i hi]
    simp
  refine ⟨?_, ?_, ?_⟩
  · intro hlow hemp hmaj h7 hm7
    rw [hout]
    unfold progressionFix
    rw [if_pos hlow]
    simp only [hemp, hmaj, Bool.not_false, Bool.and_self, if_pos]
    rw [if_neg h7, if_neg hm7]
  · intro hlow hemp hmaj hsym
    rw [hout]
    unfold progressionFix
    rw [if_pos hlow]
    simp only [hemp, hmaj, Bool.not_false, Bool.and_self, if_pos]
    rcases hsym with h7 | hm7
    · rw [if_pos h7]
    · rw [if_neg (by rw [hm7]; decide), if_pos hm7]
  · intro hlow
    rw [hout]
    unfold progressionFix
    rw [if_neg (by rw [hlow]; exact Bool.false_ne_true)]

/-- C7 (witness): a lowercase numeral whose expansion is a dominant
seventh (symbol `"7"`, containing a major third) is realized as
tonic+`"m7"`, concretely `"Gm7"`. -/
theorem progression_minor_correction_witness :
    (getProgressionChords fromRomanStub chordGetStub7 (str "C") [str "bvii"]).getD 0 [] =
      str "Gm7" :=
  ((progression_minor_correction fromRomanStub chordGetStub7 (str "C") [str "bvii"] 0
      (by decide)).2.1 (by decide) (by decide) (by decide) (Or.inl (by decide))).trans (by decide)

/-- C8: when the interval set contains both `"3M"` and `"7M"`, the natural
voicing is exactly the fixed 5-note stack (bass root, chord-octave root,
fifth, seventh, compound major third `"10M"`) in that order; for root
`"C"` (a high root: bass octave 3, chord octave 4) the major-seventh chord
voices as `["C3", "C4", "G4", "B4", "E5"]`. -/
theorem natural_voicing_maj7_stack :
    (∀ (root : Str) (intervals : List Str), root ≠ [] →
      intervals.contains (str "3M") = true → intervals.contains (str "7M") = true →
      getNaturalVoicing root intervals =
        (Tonal.pitchClass root ++
           (if lowRoots.contains (Tonal.pitchClass root) then str "2" else str "3")) ::
          [Tonal.transpose (Tonal.pitchClass root ++
             (if lowRoots.contains (Tonal.pitchClass root) then str "3" else str "4")) (str "1P"),
           Tonal.transpose (Tonal.pitchClass root ++
             (if lowRoots.contains (Tonal.pitchClass root) then str "3" else str "4")) (str "5P"),
           Tonal.transpose (Tonal.pitchClass root ++
             (if lowRoots.contains (Tonal.pitchClass root) then str "3" else str "4")) (str "7M"),
           Tonal.transpose (Tonal.pitchClass root ++
             (if lowRoots.contains (Tonal.pitchClass root) then str "3" else str "4")) (str "10M")]) ∧
    getNaturalVoicing (str "C") [str "1P", str "3M", str "5P", str "7M"] =
      [str "C3", str "C4", str "G4", str "B4", str "E5"] := by
  constructor
  · intro root intervals hr h3 h7
    have hre : root.isEmpty = false := by
      cases root with
      | nil => exact absurd rfl hr
      | cons c t => rfl
    simp only [getNaturalVoicing, hre, h3, h7, Bool.and_self, Bool.false_eq_true, if_false,
      if_true]
  · decide

/-- C8 (witness): the universal stack shape applied at root `"C"` with the
major-seventh interval set, evaluated to the concrete note names. -/
theorem natural_voicing_maj7_stack_witness :
    getNaturalVoicing (str "C") [str "1P", str "3M", str "5P", str "7M"] =
      [str "C3", str "C4", str "G4", str "B4", str "E5"] :=
  (natural_voicing_maj7_stack.1 (str "C") [str "1P", str "3M", str "5P", str "7M"]
      (by decide) (by decide) (by decide)).trans (by decide)

/-- C9: a featured chord with non-empty custom notes skips chord
resolution: notes are the custom notes verbatim, symbol and name are taken
as given, and each interval is the distance from the root to the custom
note with its octave digit removed. -/
theorem featured_custom_override :
    ∀ (chordGet : Str → ChordInfo) (featured : FeaturedChord),
      featured.customNotes ≠ [] →
      getFeaturedChordData chordGet featured =
        { root := featured.root
          symbol := featured.symbol
          notes := featured.customNotes
          intervals := featured.customNotes.map
            (fun n => Tonal.distance featured.root (removeFirstDigit n))
          name := featured.displayName } := by
  intro chordGet featured h
  have hne : featured.customNotes.isEmpty = false := by
    cases hc : featured.customNotes with
    | nil => exact absurd hc h
    | cons c t => rfl
  simp only [getFeaturedChordData, hne, Bool.not_false, if_true]

/-- C9 (witness): the curated Spy Chord voicing is passed through
verbatim, with intervals recomputed by pitch-class distance from E. -/
theorem featured_custom_override_witness :
    getFeaturedChordData chordGetStub featuredSpyChord =
      { root := str "E", symbol := str "mM9",
        notes := [str "E3", str "G3", str "B3", str "D#4", str "F#4"],
        intervals := [str "1P", str "3m", str "5P", str "7M", str "2M"],
        name := str "The Spy Chord" } :=
  (featured_custom_override chordGetStub featuredSpyChord (by decide)).trans (by decide)
